import Mathlib

set_option maxRecDepth 100000

/-!
Verification development for the snowflake identifier generator in `src/main.go`.

The Go code works on `int64`. We model an `int64` value as a mathematical
integer together with the two helper functions below: `w64` gives the 64-bit
two's-complement bit pattern of a value (as a natural number below `2^64`,
this is also the "unsigned 64-bit view" of an identifier), and `toInt64`
reinterprets a 64-bit pattern as the signed value it denotes.  The Go bitwise
operators `<<`, `|`, `&`, `^` on `int64` are then `shl64`, `or64`, `and64`,
`xor64`: they act on bit patterns and reinterpret, exactly as the machine does.

`Generate` reads the wall clock (`time.Now().UnixMilli()`); we model the clock
as a list of successive `now_ms` readings that the call consumes, returning
the unconsumed remainder.  A call that would keep spinning in the busy-wait
loop past the end of the list is modelled as `none`.  Go's `error` result is
modelled as `Option String` (`none` = `nil`).  The per-instance mutex only
serialises calls and has no sequential content, so it is not modelled.
-/

/-- 64-bit two's-complement bit pattern of an `int64` value. -/
def w64 (x : Int) : Nat := (x % (2 ^ 64 : Int)).toNat

/-- Reinterpret a 64-bit pattern as the signed `int64` value it denotes. -/
def toInt64 (p : Nat) : Int := if p < 2 ^ 63 then (p : Int) else (p : Int) - 2 ^ 64

/-- Go `x << k` on `int64` (high bits discarded). -/
def shl64 (x : Int) (k : Nat) : Int := toInt64 ((w64 x <<< k) % 2 ^ 64)

/-- Go `x | y` on `int64`. -/
def or64 (x y : Int) : Int := toInt64 (w64 x ||| w64 y)

/-- Go `x & y` on `int64`. -/
def and64 (x y : Int) : Int := toInt64 (w64 x &&& w64 y)

/-- Go `x ^ y` on `int64` (bitwise exclusive or). -/
def xor64 (x y : Int) : Int := toInt64 (w64 x ^^^ w64 y)

/-- `epoch` constant (src/main.go line 11), milliseconds. -/
def epoch : Int := 1629980400000

/-- `machineBits` (line 12). -/
def machineBits : Nat := 5

/-- `dataCenterBits` (line 13). -/
def dataCenterBits : Nat := 5

/-- `sequenceBits` (line 14). -/
def sequenceBits : Nat := 12

/-- `maxMachineID = -1 ^ (-1 << machineBits)` (line 18). -/
def maxMachineID : Int := xor64 (-1) (shl64 (-1) machineBits)

/-- `maxDataCenterID = -1 ^ (-1 << dataCenterBits)` (line 19). -/
def maxDataCenterID : Int := xor64 (-1) (shl64 (-1) dataCenterBits)

/-- `maxSequence = -1 ^ (-1 << sequenceBits)` (line 20). -/
def maxSequence : Int := xor64 (-1) (shl64 (-1) sequenceBits)

/-- `machineShift = sequenceBits` (line 24). -/
def machineShift : Nat := sequenceBits

/-- `dataCenterShift = sequenceBits + machineBits` (line 25). -/
def dataCenterShift : Nat := sequenceBits + machineBits

/-- `timestampShift = sequenceBits + machineBits + dataCenterBits` (line 26). -/
def timestampShift : Nat := sequenceBits + machineBits + dataCenterBits

/-- The `Snowflake` struct (lines 30-36); the mutex field is not modelled. -/
structure Snowflake where
  machineID : Int
  dataCenterID : Int
  sequence : Int
  lastTimestamp : Int
deriving DecidableEq, Repr

/-- `NewSnowflake` (lines 38-49).  `none` models the non-nil `error` return
(the configuration error); on success `sequence` and `lastTimestamp` are the
Go zero values. -/
def NewSnowflake (machineID : Int) (dataCenterID : Int) : Option Snowflake :=
  if machineID < 0 ∨ machineID > maxMachineID then none
  else if dataCenterID < 0 ∨ dataCenterID > maxDataCenterID then none
  else some { machineID := machineID, dataCenterID := dataCenterID,
              sequence := 0, lastTimestamp := 0 }

/-- The id composition of line 77:
`(timestamp << timestampShift) | (dataCenterID << dataCenterShift) |
 (machineID << machineShift) | sequence` on `int64`. -/
def pack (ts dc mid seq : Int) : Int :=
  or64 (or64 (or64 (shl64 ts timestampShift) (shl64 dc dataCenterShift))
    (shl64 mid machineShift)) seq

/-- The busy-wait loop of lines 64-66: keep reading the clock while the
observed `now_ms - epoch` still equals `lastTimestamp`; return the first
differing observation together with the unconsumed readings. -/
def busyWait (last : Int) : List Int → Option (Int × List Int)
  | [] => none
  | r :: rs => if r - epoch = last then busyWait last rs else some (r - epoch, rs)

/-- `Generate` (lines 52-80).  The first list element is the `now_ms` reading
of line 57; further elements are consumed only by the busy-wait loop.  Result:
the `(id, err)` pair returned by the Go function, the updated receiver, and
the unconsumed clock readings. -/
def generate (s : Snowflake) : List Int → Option ((Int × Option String) × Snowflake × List Int)
  | [] => none
  | r :: rs =>
    let timestamp := r - epoch
    if timestamp = s.lastTimestamp then
      let seq := and64 (s.sequence + 1) maxSequence
      if seq = 0 then
        match busyWait s.lastTimestamp rs with
        | none => none
        | some (ts2, rest) =>
          some ((pack ts2 s.dataCenterID s.machineID seq, none),
            { s with sequence := seq, lastTimestamp := ts2 }, rest)
      else
        some ((pack timestamp s.dataCenterID s.machineID seq, none),
          { s with sequence := seq, lastTimestamp := timestamp }, rs)
    else
      some ((pack timestamp s.dataCenterID s.machineID 0, none),
        { s with sequence := 0, lastTimestamp := timestamp }, rs)

/-- Iterate `generate` for a given number of calls on one instance, threading
the receiver state and the remaining clock readings; collect each returned id
with the receiver state right after that call.  Stops early if a call runs out
of clock readings. -/
def runGen : Snowflake → List Int → Nat → List (Int × Snowflake)
  | _, _, 0 => []
  | s, clock, n + 1 =>
    match generate s clock with
    | none => []
    | some ((id, _), s2, rest) => (id, s2) :: runGen s2 rest n

/-- Timestamp field of an identifier: unsigned view shifted right by
`timestampShift`, masked to the 41 timestamp bits. -/
def tsF (i : Int) : Nat := (w64 i >>> timestampShift) &&& (2 ^ 41 - 1)

/-- Data-center field: shift right by 17, mask 5 bits. -/
def dcF (i : Int) : Nat := (w64 i >>> dataCenterShift) &&& 31

/-- Machine field: shift right by 12, mask 5 bits. -/
def midF (i : Int) : Nat := (w64 i >>> machineShift) &&& 31

/-- Sequence field: mask 12 bits. -/
def seqF (i : Int) : Nat := w64 i &&& 4095

/-- Strict lexicographic order on the (lastTimestamp, sequence) part of the
generator state. -/
def stateLt (a b : Snowflake) : Prop :=
  a.lastTimestamp < b.lastTimestamp ∨
    (a.lastTimestamp = b.lastTimestamp ∧ a.sequence < b.sequence)

instance : IsTrans Snowflake stateLt := by
  constructor
  intro a b c hab hbc
  unfold stateLt at *
  omega

/-! ### Basic facts about the int64 simulation -/

theorem w64_lt (x : Int) : w64 x < 2 ^ 64 := by
  have h2 := Int.emod_nonneg x (by norm_num : (2 ^ 64 : Int) ≠ 0)
  have h3 := Int.emod_lt_of_pos x (by norm_num : (0 : Int) < 2 ^ 64)
  unfold w64
  omega

theorem w64_of_nonneg (x : Int) (h : 0 ≤ x) : w64 x = x.toNat % 2 ^ 64 := by
  unfold w64
  omega

theorem w64_of_small (x : Int) (h0 : 0 ≤ x) (h : x < 2 ^ 64) : w64 x = x.toNat := by
  unfold w64
  omega

theorem toInt64_of_small (p : Nat) (h : p < 2 ^ 63) : toInt64 p = (p : Int) := by
  unfold toInt64
  omega

theorem w64_toInt64 (p : Nat) (h : p < 2 ^ 64) : w64 (toInt64 p) = p := by
  unfold toInt64 w64
  split
  · omega
  · omega

theorem and64_maxSequence (x : Int) (h : 0 ≤ x) :
    and64 x maxSequence = ((x.toNat % 4096 : Nat) : Int) := by
  have hms : maxSequence = 4095 := by decide
  have hw : w64 (4095 : Int) = 4095 := by decide
  rw [hms]
  unfold and64
  rw [hw, w64_of_nonneg x h]
  have h1 : x.toNat % 2 ^ 64 &&& 4095 = x.toNat % 2 ^ 64 % 2 ^ 12 := by
    have : (4095 : Nat) = 2 ^ 12 - 1 := rfl
    rw [this, Nat.and_pow_two_sub_one_eq_mod]
  rw [h1]
  have h2 : x.toNat % 2 ^ 64 % 2 ^ 12 = x.toNat % 2 ^ 12 :=
    Nat.mod_mod_of_dvd _ (by norm_num)
  rw [h2, toInt64_of_small _ (by omega)]
  norm_num

theorem and64_maxSequence_bounds (x : Int) (h : 0 ≤ x) :
    0 ≤ and64 x maxSequence ∧ and64 x maxSequence ≤ 4095 := by
  rw [and64_maxSequence x h]
  have := Nat.mod_lt x.toNat (show 0 < 4096 by norm_num)
  omega

/-! ### The unsigned 64-bit view of a packed identifier -/

theorem w64_or64 (x y : Int) : w64 (or64 x y) = w64 x ||| w64 y := by
  unfold or64
  exact w64_toInt64 _ (Nat.or_lt_two_pow (w64_lt x) (w64_lt y))

theorem w64_shl64 (x : Int) (k : Nat) : w64 (shl64 x k) = (w64 x <<< k) % 2 ^ 64 := by
  unfold shl64
  exact w64_toInt64 _ (Nat.mod_lt _ (by norm_num))

theorem w64_shl64_small (x : Int) (k : Nat) (h0 : 0 ≤ x) (h : x.toNat * 2 ^ k < 2 ^ 64) :
    w64 (shl64 x k) = x.toNat * 2 ^ k := by
  rw [w64_shl64, w64_of_nonneg x h0, Nat.shiftLeft_eq]
  have hxlt : x.toNat < 2 ^ 64 := by
    have h1 : x.toNat ≤ x.toNat * 2 ^ k := Nat.le_mul_of_pos_right _ (Nat.two_pow_pos k)
    omega
  rw [Nat.mod_eq_of_lt hxlt, Nat.mod_eq_of_lt h]

/-- Unsigned view of the composed identifier, for in-range data-center,
machine and sequence values and an arbitrary timestamp. -/
theorem w64_pack (ts dc mid seq : Int)
    (hdc0 : 0 ≤ dc) (hdc : dc ≤ 31) (hmid0 : 0 ≤ mid) (hmid : mid ≤ 31)
    (hs0 : 0 ≤ seq) (hs : seq ≤ 4095) :
    w64 (pack ts dc mid seq) =
      2 ^ 22 * (w64 ts % 2 ^ 42) + (2 ^ 17 * dc.toNat + 2 ^ 12 * mid.toNat + seq.toNat) := by
  have hA : w64 (shl64 ts timestampShift) = 2 ^ 22 * (w64 ts % 2 ^ 42) := by
    rw [w64_shl64, Nat.shiftLeft_eq]
    show w64 ts * 2 ^ 22 % 2 ^ 64 = _
    have h1 : (2 : Nat) ^ 64 = 2 ^ 42 * 2 ^ 22 := by norm_num
    rw [h1, Nat.mul_mod_mul_right]
    ring
  have hB : w64 (shl64 dc dataCenterShift) = 2 ^ 17 * dc.toNat := by
    rw [w64_shl64_small dc _ hdc0 (by show dc.toNat * 2 ^ 17 < 2 ^ 64; omega)]
    show dc.toNat * 2 ^ 17 = _
    ring
  have hC : w64 (shl64 mid machineShift) = 2 ^ 12 * mid.toNat := by
    rw [w64_shl64_small mid _ hmid0 (by show mid.toNat * 2 ^ 12 < 2 ^ 64; omega)]
    show mid.toNat * 2 ^ 12 = _
    ring
  have hD : w64 seq = seq.toNat := w64_of_small seq hs0 (by omega)
  unfold pack
  rw [w64_or64, w64_or64, w64_or64, hA, hB, hC, hD]
  rw [Nat.or_assoc, Nat.or_assoc]
  have hCD : 2 ^ 12 * mid.toNat ||| seq.toNat = 2 ^ 12 * mid.toNat + seq.toNat :=
    (Nat.mul_add_lt_is_or (by omega) _).symm
  rw [hCD]
  have hBCD : 2 ^ 17 * dc.toNat ||| (2 ^ 12 * mid.toNat + seq.toNat) =
      2 ^ 17 * dc.toNat + (2 ^ 12 * mid.toNat + seq.toNat) :=
    (Nat.mul_add_lt_is_or (by omega) _).symm
  rw [hBCD]
  have hlow : 2 ^ 17 * dc.toNat + (2 ^ 12 * mid.toNat + seq.toNat) < 2 ^ 22 := by omega
  have hAll : 2 ^ 22 * (w64 ts % 2 ^ 42) ||| (2 ^ 17 * dc.toNat + (2 ^ 12 * mid.toNat + seq.toNat)) =
      2 ^ 22 * (w64 ts % 2 ^ 42) + (2 ^ 17 * dc.toNat + (2 ^ 12 * mid.toNat + seq.toNat)) :=
    (Nat.mul_add_lt_is_or hlow _).symm
  rw [hAll]
  ring

/-! ### Field extraction from a packed identifier -/

theorem dcF_pack (ts dc mid seq : Int)
    (hdc0 : 0 ≤ dc) (hdc : dc ≤ 31) (hmid0 : 0 ≤ mid) (hmid : mid ≤ 31)
    (hs0 : 0 ≤ seq) (hs : seq ≤ 4095) :
    dcF (pack ts dc mid seq) = dc.toNat := by
  have hT : w64 ts % 2 ^ 42 < 2 ^ 42 := Nat.mod_lt _ (by norm_num)
  unfold dcF
  rw [w64_pack ts dc mid seq hdc0 hdc hmid0 hmid hs0 hs]
  show (_ >>> 17) &&& 31 = _
  rw [Nat.shiftRight_eq_div_pow]
  rw [show (31 : Nat) = 2 ^ 5 - 1 from rfl, Nat.and_pow_two_sub_one_eq_mod]
  omega

theorem midF_pack (ts dc mid seq : Int)
    (hdc0 : 0 ≤ dc) (hdc : dc ≤ 31) (hmid0 : 0 ≤ mid) (hmid : mid ≤ 31)
    (hs0 : 0 ≤ seq) (hs : seq ≤ 4095) :
    midF (pack ts dc mid seq) = mid.toNat := by
  have hT : w64 ts % 2 ^ 42 < 2 ^ 42 := Nat.mod_lt _ (by norm_num)
  unfold midF
  rw [w64_pack ts dc mid seq hdc0 hdc hmid0 hmid hs0 hs]
  show (_ >>> 12) &&& 31 = _
  rw [Nat.shiftRight_eq_div_pow]
  rw [show (31 : Nat) = 2 ^ 5 - 1 from rfl, Nat.and_pow_two_sub_one_eq_mod]
  omega

theorem seqF_pack (ts dc mid seq : Int)
    (hdc0 : 0 ≤ dc) (hdc : dc ≤ 31) (hmid0 : 0 ≤ mid) (hmid : mid ≤ 31)
    (hs0 : 0 ≤ seq) (hs : seq ≤ 4095) :
    seqF (pack ts dc mid seq) = seq.toNat := by
  have hT : w64 ts % 2 ^ 42 < 2 ^ 42 := Nat.mod_lt _ (by norm_num)
  unfold seqF
  rw [w64_pack ts dc mid seq hdc0 hdc hmid0 hmid hs0 hs]
  rw [show (4095 : Nat) = 2 ^ 12 - 1 from rfl, Nat.and_pow_two_sub_one_eq_mod]
  omega

theorem tsF_pack (ts dc mid seq : Int)
    (hdc0 : 0 ≤ dc) (hdc : dc ≤ 31) (hmid0 : 0 ≤ mid) (hmid : mid ≤ 31)
    (hs0 : 0 ≤ seq) (hs : seq ≤ 4095) :
    tsF (pack ts dc mid seq) = w64 ts % 2 ^ 42 % 2 ^ 41 := by
  have hT : w64 ts % 2 ^ 42 < 2 ^ 42 := Nat.mod_lt _ (by norm_num)
  unfold tsF
  rw [w64_pack ts dc mid seq hdc0 hdc hmid0 hmid hs0 hs]
  show (_ >>> 22) &&& (2 ^ 41 - 1) = _
  rw [Nat.shiftRight_eq_div_pow, Nat.and_pow_two_sub_one_eq_mod]
  omega

theorem tsF_pack_small (ts dc mid seq : Int)
    (hts0 : 0 ≤ ts) (hts : ts < 2 ^ 41)
    (hdc0 : 0 ≤ dc) (hdc : dc ≤ 31) (hmid0 : 0 ≤ mid) (hmid : mid ≤ 31)
    (hs0 : 0 ≤ seq) (hs : seq ≤ 4095) :
    tsF (pack ts dc mid seq) = ts.toNat := by
  rw [tsF_pack ts dc mid seq hdc0 hdc hmid0 hmid hs0 hs, w64_of_nonneg ts hts0]
  omega

/-- For a bounded timestamp the unsigned view is the exact field sum; two such
views compare exactly as the (timestamp, sequence) pairs do lexicographically. -/
theorem w64_pack_small (ts dc mid seq : Int)
    (hts0 : 0 ≤ ts) (hts : ts < 2 ^ 41)
    (hdc0 : 0 ≤ dc) (hdc : dc ≤ 31) (hmid0 : 0 ≤ mid) (hmid : mid ≤ 31)
    (hs0 : 0 ≤ seq) (hs : seq ≤ 4095) :
    w64 (pack ts dc mid seq) =
      2 ^ 22 * ts.toNat + (2 ^ 17 * dc.toNat + 2 ^ 12 * mid.toNat + seq.toNat) := by
  rw [w64_pack ts dc mid seq hdc0 hdc hmid0 hmid hs0 hs, w64_of_nonneg ts hts0]
  congr 2
  omega

/-! ### Behaviour of the busy-wait loop and of a single Generate call -/

theorem busyWait_spec {last ts2 : Int} {rest : List Int} :
    ∀ l : List Int, busyWait last l = some (ts2, rest) →
      ts2 ≠ last ∧ rest.Sublist l ∧
      ∃ r ∈ l, ts2 = r - epoch ∧ (l.Pairwise (· ≤ ·) → ∀ x ∈ rest, r ≤ x) := by
  intro l
  induction l with
  | nil => intro h; simp [busyWait] at h
  | cons r rs ih =>
    intro h
    rw [busyWait] at h
    by_cases hr : r - epoch = last
    · rw [if_pos hr] at h
      obtain ⟨hne, hsub, r0, hr0mem, hr0eq, hord⟩ := ih h
      refine ⟨hne, hsub.trans (List.sublist_cons_self r rs), r0, List.mem_cons_of_mem r hr0mem,
        hr0eq, fun hp => hord (List.Pairwise.sublist (List.sublist_cons_self r rs) hp)⟩
    · rw [if_neg hr] at h
      obtain ⟨h1, h2⟩ := Prod.mk.injEq .. ▸ Option.some.inj h
      subst h1; subst h2
      refine ⟨hr, List.sublist_cons_self r rs, r, List.mem_cons_self r rs, rfl, fun hp x hx => ?_⟩
      exact (List.pairwise_cons.mp hp).1 x hx

theorem generate_frame {s : Snowflake} {clock : List Int} {id : Int} {e : Option String}
    {s2 : Snowflake} {rest : List Int}
    (hgen : generate s clock = some ((id, e), s2, rest)) :
    e = none ∧ s2.machineID = s.machineID ∧ s2.dataCenterID = s.dataCenterID ∧
    id = pack s2.lastTimestamp s.dataCenterID s.machineID s2.sequence ∧
    (0 ≤ s.sequence → 0 ≤ s2.sequence ∧ s2.sequence ≤ 4095) := by
  cases clock with
  | nil => simp [generate] at hgen
  | cons r rs =>
    simp only [generate] at hgen
    by_cases h1 : r - epoch = s.lastTimestamp
    · rw [if_pos h1] at hgen
      by_cases h2 : and64 (s.sequence + 1) maxSequence = 0
      · rw [if_pos h2] at hgen
        cases hbw : busyWait s.lastTimestamp rs with
        | none => rw [hbw] at hgen; simp at hgen
        | some pr =>
          obtain ⟨ts2, rest2⟩ := pr
          rw [hbw] at hgen
          simp only [Option.some.injEq, Prod.mk.injEq] at hgen
          obtain ⟨⟨hid, he⟩, hs2, hrest⟩ := hgen
          subst hs2
          exact ⟨he.symm, rfl, rfl, by rw [← hid, h2], fun _ => by simp [h2]⟩
      · rw [if_neg h2] at hgen
        simp only [Option.some.injEq, Prod.mk.injEq] at hgen
        obtain ⟨⟨hid, he⟩, hs2, hrest⟩ := hgen
        subst hs2
        refine ⟨he.symm, rfl, rfl, by rw [← hid, h1], fun hs0 => ?_⟩
        simpa using and64_maxSequence_bounds (s.sequence + 1) (by omega)
    · rw [if_neg h1] at hgen
      simp only [Option.some.injEq, Prod.mk.injEq] at hgen
      obtain ⟨⟨hid, he⟩, hs2, hrest⟩ := hgen
      subst hs2
      exact ⟨he.symm, rfl, rfl, by rw [← hid], fun _ => by simp⟩

/-- One successful `Generate` call, under a well-formed sequence counter and a
non-regressing clock: the (timestamp, sequence) state strictly increases
lexicographically, the new `lastTimestamp` is one of the observed readings,
and the clock hypotheses are re-established for the unconsumed readings. -/
theorem generate_step {s : Snowflake} {clock : List Int} {id : Int} {e : Option String}
    {s2 : Snowflake} {rest : List Int}
    (hseq0 : 0 ≤ s.sequence) (hseq1 : s.sequence ≤ 4095)
    (hpair : clock.Pairwise (· ≤ ·))
    (hge : ∀ r ∈ clock, s.lastTimestamp ≤ r - epoch)
    (hgen : generate s clock = some ((id, e), s2, rest)) :
    stateLt s s2 ∧
    (∃ r ∈ clock, s2.lastTimestamp = r - epoch) ∧
    rest.Pairwise (· ≤ ·) ∧
    (∀ r ∈ rest, s2.lastTimestamp ≤ r - epoch) ∧
    (∀ r ∈ rest, r ∈ clock) := by
  cases clock with
  | nil => simp [generate] at hgen
  | cons r rs =>
    have hgeHead : s.lastTimestamp ≤ r - epoch := hge r (List.mem_cons_self r rs)
    have hpairTail : rs.Pairwise (· ≤ ·) := List.Pairwise.of_cons hpair
    simp only [generate] at hgen
    by_cases h1 : r - epoch = s.lastTimestamp
    · rw [if_pos h1] at hgen
      by_cases h2 : and64 (s.sequence + 1) maxSequence = 0
      · rw [if_pos h2] at hgen
        cases hbw : busyWait s.lastTimestamp rs with
        | none => rw [hbw] at hgen; simp at hgen
        | some pr =>
          obtain ⟨ts2, rest2⟩ := pr
          rw [hbw] at hgen
          simp only [Option.some.injEq, Prod.mk.injEq] at hgen
          obtain ⟨⟨hid, he⟩, hs2, hrest⟩ := hgen
          subst hs2; subst hrest
          obtain ⟨hne, hsub, r0, hr0mem, hr0eq, hord⟩ := busyWait_spec rs hbw
          have hr0ge : s.lastTimestamp ≤ r0 - epoch := hge r0 (List.mem_cons_of_mem r hr0mem)
          refine ⟨Or.inl (by simp only []; omega),
            ⟨r0, List.mem_cons_of_mem r hr0mem, hr0eq⟩,
            List.Pairwise.sublist hsub hpairTail, ?_, ?_⟩
          · intro x hx
            have := hord hpairTail x hx
            simp only []
            omega
          · intro x hx
            exact List.mem_cons_of_mem r (hsub.subset hx)
      · rw [if_neg h2] at hgen
        simp only [Option.some.injEq, Prod.mk.injEq] at hgen
        obtain ⟨⟨hid, he⟩, hs2, hrest⟩ := hgen
        subst hs2; subst hrest
        have hand := and64_maxSequence (s.sequence + 1) (by omega)
        have hseqlt : s.sequence < and64 (s.sequence + 1) maxSequence := by
          rw [hand] at h2 ⊢
          omega
        refine ⟨Or.inr ⟨by simp only []; omega, hseqlt⟩,
          ⟨r, List.mem_cons_self r rs, rfl⟩,
          hpairTail, ?_, fun x hx => List.mem_cons_of_mem r hx⟩
        intro x hx
        have := hge x (List.mem_cons_of_mem r hx)
        simp only []
        omega
    · rw [if_neg h1] at hgen
      simp only [Option.some.injEq, Prod.mk.injEq] at hgen
      obtain ⟨⟨hid, he⟩, hs2, hrest⟩ := hgen
      subst hs2; subst hrest
      refine ⟨Or.inl (by simp only []; omega),
        ⟨r, List.mem_cons_self r rs, rfl⟩,
        hpairTail, ?_, fun x hx => List.mem_cons_of_mem r hx⟩
      intro x hx
      have h3 := hge x (List.mem_cons_of_mem r hx)
      have h4 : r ≤ x := (List.pairwise_cons.mp hpair).1 x hx
      simp only []
      omega

/-- Master lemma about a run of calls on one instance under a sorted,
non-regressing clock: every produced id is the packing of the state right
after its call, identity fields and the sequence bounds are preserved, every
recorded timestamp stems from an observed reading, and the
(timestamp, sequence) states form a strictly increasing lexicographic chain
starting at the initial state. -/
theorem runGen_spec : ∀ (n : Nat) (s : Snowflake) (clock : List Int),
    0 ≤ s.sequence → s.sequence ≤ 4095 →
    clock.Pairwise (· ≤ ·) → (∀ r ∈ clock, s.lastTimestamp ≤ r - epoch) →
    (∀ p ∈ runGen s clock n,
       p.2.machineID = s.machineID ∧ p.2.dataCenterID = s.dataCenterID ∧
       0 ≤ p.2.sequence ∧ p.2.sequence ≤ 4095 ∧
       p.1 = pack p.2.lastTimestamp s.dataCenterID s.machineID p.2.sequence ∧
       (∃ r ∈ clock, p.2.lastTimestamp = r - epoch)) ∧
    List.Chain' stateLt (s :: (runGen s clock n).map Prod.snd) := by
  intro n
  induction n with
  | zero =>
    intro s clock _ _ _ _
    exact ⟨by simp [runGen], by simp [runGen]⟩
  | succ n ih =>
    intro s clock hs0 hs1 hpair hge
    cases hg : generate s clock with
    | none =>
      simp only [runGen, hg]
      exact ⟨by simp, by simp⟩
    | some out =>
      obtain ⟨⟨id, e⟩, s2, rest⟩ := out
      simp only [runGen, hg]
      obtain ⟨he, hmid, hdc, hid, hseqb⟩ := generate_frame hg
      obtain ⟨hlt, hts, hpair2, hge2, hmem2⟩ := generate_step hs0 hs1 hpair hge hg
      obtain ⟨hs20, hs21⟩ := hseqb hs0
      have IH := ih s2 rest hs20 hs21 hpair2 hge2
      constructor
      · intro p hp
        rcases List.mem_cons.mp hp with hp | hp
        · subst hp
          exact ⟨hmid, hdc, hs20, hs21, hid, hts⟩
        · obtain ⟨f1, f2, f3, f4, f5, r0, hr0, hr0eq⟩ := IH.1 p hp
          exact ⟨f1.trans hmid, f2.trans hdc, f3, f4, by rw [f5, hdc, hmid],
            r0, hmem2 r0 hr0, hr0eq⟩
      · rw [List.map_cons]
        exact List.chain'_cons.mpr ⟨hlt, IH.2⟩

/-! ### Generic helpers -/

theorem chain'_of_chain'_mem {α : Type} {R S : α → α → Prop} {P : α → Prop}
    (hRS : ∀ a b, P a → P b → R a b → S a b) :
    ∀ l : List α, (∀ x ∈ l, P x) → l.Chain' R → l.Chain' S := by
  intro l
  induction l with
  | nil => intro _ _; simp
  | cons a t ih =>
    cases t with
    | nil => intro _ _; simp
    | cons b t2 =>
      intro hP hR
      rw [List.chain'_cons] at hR ⊢
      refine ⟨hRS a b (hP a (by simp)) (hP b (by simp [List.mem_cons])) hR.1, ih ?_ hR.2⟩
      intro x hx
      exact hP x (List.mem_cons_of_mem a hx)

theorem length_le_of_pairwise_lt_of_bounds {l : List Int} (hp : l.Pairwise (· < ·))
    (hb : ∀ x ∈ l, 0 ≤ x ∧ x ≤ 4095) : l.length ≤ 4096 := by
  have hpN : (l.map Int.toNat).Pairwise (· < ·) := by
    rw [List.pairwise_map]
    refine hp.imp_of_mem ?_
    intro a b ha hb2 hab
    have h1 := hb a ha
    have h2 := hb b hb2
    omega
  have hnd : (l.map Int.toNat).Nodup := hpN.imp Nat.ne_of_lt
  have hcard : (l.map Int.toNat).toFinset.card = (l.map Int.toNat).length :=
    List.toFinset_card_of_nodup hnd
  have hsub : (l.map Int.toNat).toFinset ⊆ Finset.range 4096 := by
    intro x hx
    rw [List.mem_toFinset, List.mem_map] at hx
    obtain ⟨y, hy, rfl⟩ := hx
    have := hb y hy
    rw [Finset.mem_range]
    omega
  have := Finset.card_le_card hsub
  rw [Finset.card_range] at this
  rw [List.length_map] at hcard
  omega

theorem newSnowflake_some {m d : Int} {g : Snowflake} (h : NewSnowflake m d = some g) :
    g.machineID = m ∧ g.dataCenterID = d ∧ g.sequence = 0 ∧ g.lastTimestamp = 0 ∧
    0 ≤ m ∧ m ≤ 31 ∧ 0 ≤ d ∧ d ≤ 31 := by
  unfold NewSnowflake at h
  rw [show maxMachineID = 31 from by decide, show maxDataCenterID = 31 from by decide] at h
  by_cases h1 : m < 0 ∨ m > 31
  · rw [if_pos h1] at h; exact absurd h (by simp)
  · rw [if_neg h1] at h
    by_cases h2 : d < 0 ∨ d > 31
    · rw [if_pos h2] at h; exact absurd h (by simp)
    · rw [if_neg h2] at h
      have hg := Option.some.inj h
      subst hg
      push_neg at h1 h2
      exact ⟨rfl, rfl, rfl, rfl, h1.1, h1.2, h2.1, h2.2⟩

/-- Unsigned views of two in-range packed identifiers with the same identity
fields compare strictly whenever the (timestamp, sequence) pairs compare
strictly in lexicographic order. -/
theorem w64_pack_lt (l1 q1 l2 q2 dc mid : Int)
    (hl10 : 0 ≤ l1) (hl1 : l1 < 2 ^ 41) (hl20 : 0 ≤ l2) (hl2 : l2 < 2 ^ 41)
    (hq10 : 0 ≤ q1) (hq1 : q1 ≤ 4095) (hq20 : 0 ≤ q2) (hq2 : q2 ≤ 4095)
    (hdc0 : 0 ≤ dc) (hdc : dc ≤ 31) (hmid0 : 0 ≤ mid) (hmid : mid ≤ 31)
    (hlex : l1 < l2 ∨ (l1 = l2 ∧ q1 < q2)) :
    w64 (pack l1 dc mid q1) < w64 (pack l2 dc mid q2) := by
  rw [w64_pack_small l1 dc mid q1 hl10 hl1 hdc0 hdc hmid0 hmid hq10 hq1]
  rw [w64_pack_small l2 dc mid q2 hl20 hl2 hdc0 hdc hmid0 hmid hq20 hq2]
  omega

/-- One-step unfolding of `runGen` on a successful call. -/
theorem runGen_cons {s : Snowflake} {clock : List Int} {id : Int} {e : Option String}
    {s2 : Snowflake} {rest : List Int} (n : Nat)
    (hgen : generate s clock = some ((id, e), s2, rest)) :
    runGen s clock (n + 1) = (id, s2) :: runGen s2 rest n := by
  simp only [runGen, hgen]

/-- A streak of same-millisecond calls: starting with counter `j` and `k`
further readings equal to `lastTimestamp`, the next `k` calls return sequence
values `j + 1, …, j + k` under the same timestamp, as long as the counter does
not wrap. -/
theorem runGen_streak (M D T : Int) :
    ∀ (k : Nat) (j : Int) (tail : List Int) (n : Nat), 0 ≤ j → j + k ≤ 4095 →
      runGen ⟨M, D, j, T⟩ (List.replicate k (epoch + T) ++ tail) (k + n) =
        ((List.range k).map fun i : Nat =>
          (pack T D M (j + (i : Int) + 1), (⟨M, D, j + (i : Int) + 1, T⟩ : Snowflake))) ++
          runGen ⟨M, D, j + k, T⟩ tail n := by
  intro k
  induction k with
  | zero =>
    intro j tail n h0 h1
    simp
  | succ k ih =>
    intro j tail n h0 h1
    have hk : (k : Int) ≥ 0 := Int.natCast_nonneg k
    have ha : and64 (j + 1) maxSequence = j + 1 := by
      rw [and64_maxSequence _ (by omega)]
      push_cast at h1
      omega
    have hane : ¬ and64 (j + 1) maxSequence = 0 := by rw [ha]; omega
    have hgen : generate ⟨M, D, j, T⟩
        ((epoch + T) :: (List.replicate k (epoch + T) ++ tail)) =
        some ((pack T D M (j + 1), none), ⟨M, D, j + 1, T⟩,
          List.replicate k (epoch + T) ++ tail) := by
      simp only [generate]
      rw [show epoch + T - epoch = T from by ring]
      rw [if_pos rfl, if_neg hane, ha]
    rw [List.replicate_succ, List.cons_append,
      show k + 1 + n = (k + n) + 1 from by omega]
    simp only [runGen, hgen]
    rw [ih (j + 1) tail n (by omega) (by push_cast at h1 ⊢; omega)]
    rw [List.range_succ_eq_map, List.map_cons, List.map_map, List.cons_append]
    congr 1
    · norm_num
    congr 1
    · refine List.map_congr_left ?_
      intro i _
      show _ = (pack T D M (j + (Nat.succ i : Int) + 1),
          (⟨M, D, j + (Nat.succ i : Int) + 1, T⟩ : Snowflake))
      have hcast : (j + (Nat.succ i : Int) + 1) = j + 1 + i + 1 := by push_cast; ring
      rw [hcast]
    · have hcast : (j + 1 + (k : Int)) = j + ((k : Nat) + 1 : Nat) := by push_cast; ring
      rw [hcast]

/-- Full decomposition of the 4097-call run in one mocked millisecond
(readings stuck at `epoch + 1`, next millisecond available for the busy-wait):
one id with sequence 0, then 4095 ids with sequences 1..4095, all at
timestamp 1, then one id at timestamp 2 with sequence 0. -/
theorem bigRun_eq :
    runGen ⟨1, 1, 0, 0⟩ (List.replicate 4097 (epoch + 1) ++ [epoch + 2]) 4097 =
      (pack 1 1 1 0, (⟨1, 1, 0, 1⟩ : Snowflake)) ::
        (((List.range 4095).map fun i : Nat =>
          (pack 1 1 1 ((0 : Int) + (i : Int) + 1),
            (⟨1, 1, (0 : Int) + (i : Int) + 1, 1⟩ : Snowflake))) ++
          [(pack 2 1 1 0, (⟨1, 1, 0, 2⟩ : Snowflake))]) := by
  rw [show (4097 : Nat) = 4096 + 1 from rfl, List.replicate_succ, List.cons_append]
  have hgen1 : generate ⟨1, 1, 0, 0⟩
      ((epoch + 1) :: (List.replicate 4096 (epoch + 1) ++ [epoch + 2])) =
      some ((pack 1 1 1 0, none), ⟨1, 1, 0, 1⟩,
        List.replicate 4096 (epoch + 1) ++ [epoch + 2]) := by
    simp only [generate]
    rw [show epoch + 1 - epoch = (1 : Int) from by ring]
    rw [if_neg (by norm_num)]
  rw [runGen_cons 4096 hgen1]
  rw [show (4096 : Nat) = 4095 + 1 from rfl, List.replicate_add, List.replicate_one,
    List.append_assoc]
  rw [runGen_streak 1 1 1 4095 0 ([epoch + 1] ++ [epoch + 2]) 1 (by norm_num) (by norm_num)]
  congr 1

/-- Frame facts along an arbitrary run (no clock assumptions): identity
fields never change, the sequence counter stays in `[0, 4095]`, and every id
is the packing of the state right after its call. -/
theorem runGen_frame : ∀ (n : Nat) (s : Snowflake) (clock : List Int), 0 ≤ s.sequence →
    ∀ p ∈ runGen s clock n,
      p.2.machineID = s.machineID ∧ p.2.dataCenterID = s.dataCenterID ∧
      0 ≤ p.2.sequence ∧ p.2.sequence ≤ 4095 ∧
      p.1 = pack p.2.lastTimestamp s.dataCenterID s.machineID p.2.sequence := by
  intro n
  induction n with
  | zero => intro s clock _ p hp; simp [runGen] at hp
  | succ n ih =>
    intro s clock hs0 p hp
    cases hg : generate s clock with
    | none => simp only [runGen, hg] at hp; simp at hp
    | some out =>
      obtain ⟨⟨id, e⟩, s2, rest⟩ := out
      simp only [runGen, hg] at hp
      obtain ⟨he, hmid, hdc, hid, hseqb⟩ := generate_frame hg
      obtain ⟨h20, h21⟩ := hseqb hs0
      rcases List.mem_cons.mp hp with rfl | hp2
      · exact ⟨hmid, hdc, h20, h21, hid⟩
      · have h := ih s2 rest h20 p hp2
        exact ⟨h.1.trans hmid, h.2.1.trans hdc, h.2.2.1, h.2.2.2.1,
          by rw [h.2.2.2.2, hdc, hmid]⟩

/-! ### Claim theorems -/

/-- C1 (code bug witness): on a generator reached from `NewSnowflake 1 1` by a
successful call at observed timestamp 5, a call observing timestamp 3 — which
is strictly below `lastTimestamp`, i.e. a backward clock jump — still returns
an identifier together with a nil error.  The code has no clock-regression
check at all, so the `ClockError` demanded by the claim is never produced. -/
theorem clockRegression_produces_id_without_error :
    NewSnowflake 1 1 = some ⟨1, 1, 0, 0⟩ ∧
    generate ⟨1, 1, 0, 0⟩ [epoch + 5] = some ((pack 5 1 1 0, none), ⟨1, 1, 0, 5⟩, []) ∧
    (epoch + 3) - epoch < (5 : Int) ∧
    generate ⟨1, 1, 0, 5⟩ [epoch + 3] = some ((pack 3 1 1 0, none), ⟨1, 1, 0, 3⟩, []) := by
  exact ⟨by decide, by decide, by decide, by decide⟩

/-- C3 (code bug witness): across two successful calls on the same instance —
readings `epoch + 5` then `epoch + 3`, the clock having jumped backwards —
`lastTimestamp` moves from 5 down to 3, so it is not monotonically
non-decreasing across successful calls. -/
theorem lastTimestamp_decreases_after_backward_clock_jump :
    (runGen ⟨1, 1, 0, 0⟩ [epoch + 5, epoch + 3] 2).map (fun p => p.2.lastTimestamp) =
      [5, 3] ∧ ¬ (5 : Int) ≤ 3 := by
  exact ⟨by decide, by decide⟩

/-- C6 (code bug witness): with `lastTimestamp = 10` and the sequence counter
exhausted, the wrap-around busy-wait exits on the first reading that merely
differs from `lastTimestamp`: after a backward jump to observed timestamp
`7 < 10` it stops waiting and emits an identifier carrying timestamp 7,
instead of spinning until the observed timestamp strictly exceeds 10. -/
theorem busyWait_exits_below_lastTimestamp :
    generate ⟨1, 1, 4095, 10⟩ [epoch + 10, epoch + 7] =
      some ((pack 7 1 1 0, none), ⟨1, 1, 0, 7⟩, []) ∧
    (7 : Int) < 10 := by
  exact ⟨by decide, by decide⟩

/-- C5: construction fails exactly when `machineID` or `dataCenterID` falls
outside `[0, 31]`; the listed concrete calls fail/succeed as the claim states,
and a successfully constructed generator starts with `sequence = 0` and
`lastTimestamp = 0`. -/
theorem newSnowflake_bounds_iff :
    (∀ m d : Int, (NewSnowflake m d).isNone ↔ (m < 0 ∨ 31 < m ∨ d < 0 ∨ 31 < d)) ∧
    (∀ (m d : Int) (g : Snowflake), NewSnowflake m d = some g →
      g.machineID = m ∧ g.dataCenterID = d ∧ g.sequence = 0 ∧ g.lastTimestamp = 0) ∧
    NewSnowflake (-1) 0 = none ∧ NewSnowflake 0 32 = none ∧ NewSnowflake 32 0 = none ∧
    NewSnowflake 0 0 = some ⟨0, 0, 0, 0⟩ ∧ NewSnowflake 31 31 = some ⟨31, 31, 0, 0⟩ := by
  refine ⟨?_, ?_, by decide, by decide, by decide, by decide, by decide⟩
  · intro m d
    unfold NewSnowflake
    rw [show maxMachineID = 31 from by decide, show maxDataCenterID = 31 from by decide]
    by_cases h1 : m < 0 ∨ m > 31
    · rw [if_pos h1]; simp; omega
    · rw [if_neg h1]
      by_cases h2 : d < 0 ∨ d > 31
      · rw [if_pos h2]; simp; omega
      · rw [if_neg h2]; simp; omega
  · intro m d g h
    have h2 := newSnowflake_some h
    exact ⟨h2.1, h2.2.1, h2.2.2.1, h2.2.2.2.1⟩

theorem newSnowflake_bounds_witness :
    (⟨5, 7, 0, 0⟩ : Snowflake).machineID = 5 ∧ (⟨5, 7, 0, 0⟩ : Snowflake).dataCenterID = 7 ∧
    (⟨5, 7, 0, 0⟩ : Snowflake).sequence = 0 ∧ (⟨5, 7, 0, 0⟩ : Snowflake).lastTimestamp = 0 :=
  newSnowflake_bounds_iff.2.1 5 7 ⟨5, 7, 0, 0⟩ (by decide)

/-- C9: `Generate` returns a nil error on every path on which it returns at
all; in particular a reading strictly below `lastTimestamp` (backward clock
jump) still yields an identifier with a nil error. -/
theorem generate_error_always_nil :
    (∀ (s : Snowflake) (clock : List Int) (out : (Int × Option String) × Snowflake × List Int),
      generate s clock = some out → out.1.2 = none) ∧
    (∀ (s : Snowflake) (r : Int) (rs : List Int), r - epoch < s.lastTimestamp →
      generate s (r :: rs) = some ((pack (r - epoch) s.dataCenterID s.machineID 0, none),
        ⟨s.machineID, s.dataCenterID, 0, r - epoch⟩, rs)) := by
  constructor
  · intro s clock out h
    obtain ⟨⟨id, e⟩, s2, rest⟩ := out
    exact (generate_frame h).1
  · intro s r rs hlt
    simp only [generate]
    rw [if_neg (by omega)]

theorem generate_error_always_nil_witness :
    ((pack 3 1 1 0, (none : Option String)), (⟨1, 1, 0, 3⟩ : Snowflake), ([] : List Int)).1.2
        = none ∧
    generate ⟨1, 1, 0, 5⟩ [epoch + 3] =
      some ((pack ((epoch + 3) - epoch) 1 1 0, none), ⟨1, 1, 0, (epoch + 3) - epoch⟩, []) :=
  ⟨generate_error_always_nil.1 ⟨1, 1, 0, 5⟩ [epoch + 3]
      ((pack 3 1 1 0, none), ⟨1, 1, 0, 3⟩, []) (by decide),
    generate_error_always_nil.2 ⟨1, 1, 0, 5⟩ (epoch + 3) [] (by decide)⟩

/-- C10: a `Generate` call never modifies the `machineID` or `dataCenterID`
fields, whatever its clock readings. -/
theorem generate_preserves_machine_and_datacenter :
    ∀ (s : Snowflake) (clock : List Int) (out : (Int × Option String) × Snowflake × List Int),
      generate s clock = some out →
      out.2.1.machineID = s.machineID ∧ out.2.1.dataCenterID = s.dataCenterID := by
  intro s clock out h
  obtain ⟨⟨id, e⟩, s2, rest⟩ := out
  have h2 := generate_frame h
  exact ⟨h2.2.1, h2.2.2.1⟩

theorem generate_preserves_witness :
    (⟨2, 3, 0, 9⟩ : Snowflake).machineID = (⟨2, 3, 0, 5⟩ : Snowflake).machineID ∧
    (⟨2, 3, 0, 9⟩ : Snowflake).dataCenterID = (⟨2, 3, 0, 5⟩ : Snowflake).dataCenterID :=
  generate_preserves_machine_and_datacenter ⟨2, 3, 0, 5⟩ [epoch + 9]
    ((pack 9 3 2 0, none), ⟨2, 3, 0, 9⟩, []) (by decide)

/-- C4: every identifier produced — over any number of calls and any clock
readings — on an instance built by `NewSnowflake` yields back the exact
configured `dataCenterID` under shift 17 / 5-bit mask and the exact
`machineID` under shift 12 / 5-bit mask. -/
theorem id_fields_roundtrip_datacenter_machine
    (m d : Int) (g : Snowflake) (hnew : NewSnowflake m d = some g)
    (clock : List Int) (n : Nat) :
    ∀ p ∈ runGen g clock n, (dcF p.1 : Int) = d ∧ (midF p.1 : Int) = m := by
  obtain ⟨hm, hd, hseq, _, hm0, hm1, hd0, hd1⟩ := newSnowflake_some hnew
  intro p hp
  obtain ⟨_, _, f3, f4, f5⟩ := runGen_frame n g clock (by omega) p hp
  rw [hd, hm] at f5
  rw [f5]
  constructor
  · rw [dcF_pack _ _ _ _ hd0 hd1 hm0 hm1 f3 f4]
    exact Int.toNat_of_nonneg hd0
  · rw [midF_pack _ _ _ _ hd0 hd1 hm0 hm1 f3 f4]
    exact Int.toNat_of_nonneg hm0

theorem id_fields_roundtrip_witness :
    (dcF (pack 5 1 1 0) : Int) = 1 ∧ (midF (pack 5 1 1 0) : Int) = 1 :=
  id_fields_roundtrip_datacenter_machine 1 1 ⟨1, 1, 0, 0⟩ (by decide) [epoch + 5] 1
    (pack 5 1 1 0, ⟨1, 1, 0, 5⟩) (by decide)

/-- C2 counterexample: on a freshly constructed generator, with a clock that
never regresses (first reading ≤ second reading), two successive successful
calls at observed timestamps `2^42 - 1` and `2^42` produce identifiers whose
unsigned 64-bit views strictly DECREASE (the timestamp overflows out of the
64-bit word), and whose embedded 41-bit timestamp fields also decrease. -/
theorem unsigned_monotonicity_fails_on_timestamp_overflow :
    NewSnowflake 1 1 = some ⟨1, 1, 0, 0⟩ ∧
    (epoch + 4398046511103 : Int) ≤ epoch + 4398046511104 ∧
    runGen ⟨1, 1, 0, 0⟩ [epoch + 4398046511103, epoch + 4398046511104] 2 =
      [(pack 4398046511103 1 1 0, ⟨1, 1, 0, 4398046511103⟩),
       (pack 4398046511104 1 1 0, ⟨1, 1, 0, 4398046511104⟩)] ∧
    w64 (pack 4398046511104 1 1 0) < w64 (pack 4398046511103 1 1 0) ∧
    tsF (pack 4398046511104 1 1 0) < tsF (pack 4398046511103 1 1 0) := by
  exact ⟨by decide, by decide, by decide, by decide, by decide⟩

/-- C2 (amended): on a single constructed instance, if the clock readings
never regress and every observed timestamp fits the 41-bit timestamp field,
successive successful calls return identifiers that strictly increase as
unsigned 64-bit integers, with non-decreasing embedded timestamp fields. -/
theorem ids_strictly_increasing_under_monotone_bounded_clock
    (m d : Int) (g : Snowflake) (clock : List Int) (n : Nat)
    (hnew : NewSnowflake m d = some g)
    (hpair : clock.Pairwise (· ≤ ·))
    (hclock : ∀ r ∈ clock, 0 ≤ r - epoch ∧ r - epoch < 2 ^ 41) :
    ((runGen g clock n).map Prod.fst).Chain' (fun a b => w64 a < w64 b) ∧
    ((runGen g clock n).map (fun p => tsF p.1)).Chain' (· ≤ ·) := by
  obtain ⟨hm, hd, hseq, hlast, hm0, hm1, hd0, hd1⟩ := newSnowflake_some hnew
  have hge : ∀ r ∈ clock, g.lastTimestamp ≤ r - epoch := by
    intro r hr
    rw [hlast]
    exact (hclock r hr).1
  have master := runGen_spec n g clock (by omega) (by omega) hpair hge
  have hP : ∀ p ∈ runGen g clock n, p.1 = pack p.2.lastTimestamp d m p.2.sequence ∧
      0 ≤ p.2.sequence ∧ p.2.sequence ≤ 4095 ∧
      0 ≤ p.2.lastTimestamp ∧ p.2.lastTimestamp < 2 ^ 41 := by
    intro p hp
    obtain ⟨f1, f2, f3, f4, f5, r0, hr0, hr0eq⟩ := master.1 p hp
    have hb := hclock r0 hr0
    exact ⟨by rw [f5, hd, hm], f3, f4, by omega, by omega⟩
  have hchain : (runGen g clock n).Chain' (fun p q => stateLt p.2 q.2) :=
    (List.chain'_map Prod.snd).mp master.2.tail
  constructor
  · rw [List.chain'_map]
    refine chain'_of_chain'_mem ?_ (runGen g clock n) hP hchain
    intro p q hPp hPq hlt
    rw [hPp.1, hPq.1]
    exact w64_pack_lt _ _ _ _ d m hPp.2.2.2.1 hPp.2.2.2.2 hPq.2.2.2.1 hPq.2.2.2.2
      hPp.2.1 hPp.2.2.1 hPq.2.1 hPq.2.2.1 hd0 hd1 hm0 hm1 hlt
  · rw [List.chain'_map]
    refine chain'_of_chain'_mem ?_ (runGen g clock n) hP hchain
    intro p q hPp hPq hlt
    rw [hPp.1, hPq.1]
    rw [tsF_pack_small _ _ _ _ hPp.2.2.2.1 hPp.2.2.2.2 hd0 hd1 hm0 hm1 hPp.2.1 hPp.2.2.1]
    rw [tsF_pack_small _ _ _ _ hPq.2.2.2.1 hPq.2.2.2.2 hd0 hd1 hm0 hm1 hPq.2.1 hPq.2.2.1]
    unfold stateLt at hlt
    omega

theorem ids_strictly_increasing_witness :
    ((runGen ⟨1, 1, 0, 0⟩ [epoch + 1, epoch + 1, epoch + 5] 3).map Prod.fst).Chain'
      (fun a b => w64 a < w64 b) ∧
    ((runGen ⟨1, 1, 0, 0⟩ [epoch + 1, epoch + 1, epoch + 5] 3).map
      (fun p => tsF p.1)).Chain' (· ≤ ·) :=
  ids_strictly_increasing_under_monotone_bounded_clock 1 1 ⟨1, 1, 0, 0⟩
    [epoch + 1, epoch + 1, epoch + 5] 3 (by decide) (by decide) (by decide)

/-- C7: under a non-regressing clock, at most `2^12 = 4096` identifiers carry
any one timestamp value, no two identifiers of a run share the same
(timestamp, sequence) pair, and in the concrete 4097-call single-millisecond
run the 4096th identifier still carries timestamp field 1 while the 4097th
carries the strictly larger timestamp field 2. -/
theorem sequence_capacity_per_millisecond
    (m d : Int) (g : Snowflake) (clock : List Int) (n : Nat)
    (hnew : NewSnowflake m d = some g)
    (hpair : clock.Pairwise (· ≤ ·))
    (hclock : ∀ r ∈ clock, 0 ≤ r - epoch) :
    (∀ t : Int,
      ((runGen g clock n).filter (fun p => p.2.lastTimestamp == t)).length ≤ 4096) ∧
    ((runGen g clock n).Pairwise (fun p q =>
      ¬(p.2.lastTimestamp = q.2.lastTimestamp ∧ p.2.sequence = q.2.sequence))) ∧
    ((runGen ⟨1, 1, 0, 0⟩ (List.replicate 4097 (epoch + 1) ++ [epoch + 2]) 4097).length
        = 4097 ∧
     ((runGen ⟨1, 1, 0, 0⟩ (List.replicate 4097 (epoch + 1) ++ [epoch + 2]) 4097).map
        (fun p => tsF p.1))[4095]? = some 1 ∧
     ((runGen ⟨1, 1, 0, 0⟩ (List.replicate 4097 (epoch + 1) ++ [epoch + 2]) 4097).map
        (fun p => tsF p.1))[4096]? = some 2) := by
  obtain ⟨hm, hd, hseq, hlast, hm0, hm1, hd0, hd1⟩ := newSnowflake_some hnew
  have hge : ∀ r ∈ clock, g.lastTimestamp ≤ r - epoch := by
    intro r hr
    rw [hlast]
    exact hclock r hr
  have master := runGen_spec n g clock (by omega) (by omega) hpair hge
  have hpw : (runGen g clock n).Pairwise (fun p q => stateLt p.2 q.2) :=
    List.pairwise_map.mp (List.chain'_iff_pairwise.mp master.2.tail)
  refine ⟨?_, ?_, ?_, ?_, ?_⟩
  · intro t
    have hsubl := List.filter_sublist (p := fun p => p.2.lastTimestamp == t)
      (runGen g clock n)
    have hseqlt : ((runGen g clock n).filter
        (fun p => p.2.lastTimestamp == t)).Pairwise
        (fun p q => p.2.sequence < q.2.sequence) := by
      refine (List.Pairwise.sublist hsubl hpw).imp_of_mem ?_
      intro a b ha hb hab
      have hat : a.2.lastTimestamp = t := by simpa using (List.mem_filter.mp ha).2
      have hbt : b.2.lastTimestamp = t := by simpa using (List.mem_filter.mp hb).2
      unfold stateLt at hab
      omega
    have hmap : (((runGen g clock n).filter (fun p => p.2.lastTimestamp == t)).map
        (fun p => p.2.sequence)).Pairwise (· < ·) := List.pairwise_map.mpr hseqlt
    have hbd : ∀ x ∈ ((runGen g clock n).filter (fun p => p.2.lastTimestamp == t)).map
        (fun p => p.2.sequence), 0 ≤ x ∧ x ≤ 4095 := by
      intro x hx
      rw [List.mem_map] at hx
      obtain ⟨p, hp, rfl⟩ := hx
      obtain ⟨_, _, f3, f4, _, _⟩ := master.1 p (hsubl.subset hp)
      exact ⟨f3, f4⟩
    have h := length_le_of_pairwise_lt_of_bounds hmap hbd
    rwa [List.length_map] at h
  · refine hpw.imp ?_
    intro a b hab
    unfold stateLt at hab
    omega
  · rw [bigRun_eq]
    simp
  · rw [bigRun_eq, List.map_cons, List.map_append, List.map_map]
    rw [show (4095 : Nat) = 4094 + 1 from rfl, List.getElem?_cons_succ]
    rw [List.getElem?_append, if_pos (by simp)]
    rw [List.getElem?_map, List.getElem?_range (by norm_num)]
    show some (tsF (pack 1 1 1 ((0 : Int) + ((4094 : Nat) : Int) + 1))) = some 1
    rw [show ((0 : Int) + ((4094 : Nat) : Int) + 1) = 4095 from by norm_num]
    decide
  · rw [bigRun_eq, List.map_cons, List.map_append, List.map_map]
    rw [show (4096 : Nat) = 4095 + 1 from rfl, List.getElem?_cons_succ]
    rw [List.getElem?_append_right (by simp)]
    simp only [List.length_map, List.length_range]
    show (List.map (fun p => tsF p.1) [(pack 2 1 1 0, (⟨1, 1, 0, 2⟩ : Snowflake))])[4095 - 4095]?
      = some 2
    decide

theorem sequence_capacity_witness :
    ((runGen ⟨1, 1, 0, 0⟩ [epoch + 1, epoch + 1] 2).filter
      (fun p => p.2.lastTimestamp == 1)).length ≤ 4096 ∧
    (runGen ⟨1, 1, 0, 0⟩ [epoch + 1, epoch + 1] 2).Pairwise (fun p q =>
      ¬(p.2.lastTimestamp = q.2.lastTimestamp ∧ p.2.sequence = q.2.sequence)) := by
  have h := sequence_capacity_per_millisecond 1 1 ⟨1, 1, 0, 0⟩ [epoch + 1, epoch + 1] 2
    (by decide) (by decide) (by decide)
  exact ⟨h.1 1, h.2.1⟩

/-- C8: on a fresh generator with `machineID = 1`, `dataCenterID = 1`, three
consecutive calls observing the same positive timestamp `t` produce three
identifiers with identical timestamp, data-center and machine fields and
sequence fields 0, 1, 2 in call order. -/
theorem three_calls_same_millisecond_sequences (t : Int) (ht : 0 < t) :
    NewSnowflake 1 1 = some ⟨1, 1, 0, 0⟩ ∧
    runGen ⟨1, 1, 0, 0⟩ [epoch + t, epoch + t, epoch + t] 3 =
      [(pack t 1 1 0, ⟨1, 1, 0, t⟩), (pack t 1 1 1, ⟨1, 1, 1, t⟩),
       (pack t 1 1 2, ⟨1, 1, 2, t⟩)] ∧
    tsF (pack t 1 1 0) = tsF (pack t 1 1 1) ∧ tsF (pack t 1 1 1) = tsF (pack t 1 1 2) ∧
    dcF (pack t 1 1 0) = 1 ∧ dcF (pack t 1 1 1) = 1 ∧ dcF (pack t 1 1 2) = 1 ∧
    midF (pack t 1 1 0) = 1 ∧ midF (pack t 1 1 1) = 1 ∧ midF (pack t 1 1 2) = 1 ∧
    seqF (pack t 1 1 0) = 0 ∧ seqF (pack t 1 1 1) = 1 ∧ seqF (pack t 1 1 2) = 2 := by
  have ha1 : and64 (0 + 1) maxSequence = 1 := by decide
  have ha2 : and64 (1 + 1) maxSequence = 2 := by decide
  have h1 : generate ⟨1, 1, 0, 0⟩ [epoch + t, epoch + t, epoch + t] =
      some ((pack t 1 1 0, none), ⟨1, 1, 0, t⟩, [epoch + t, epoch + t]) := by
    simp only [generate]
    rw [show epoch + t - epoch = t from by ring]
    rw [if_neg (by omega : ¬ t = (0 : Int))]
  have h2 : generate ⟨1, 1, 0, t⟩ [epoch + t, epoch + t] =
      some ((pack t 1 1 1, none), ⟨1, 1, 1, t⟩, [epoch + t]) := by
    simp only [generate]
    rw [show epoch + t - epoch = t from by ring]
    rw [if_pos rfl, if_neg (by rw [ha1]; omega), ha1]
  have h3 : generate ⟨1, 1, 1, t⟩ [epoch + t] =
      some ((pack t 1 1 2, none), ⟨1, 1, 2, t⟩, []) := by
    simp only [generate]
    rw [show epoch + t - epoch = t from by ring]
    rw [if_pos rfl, if_neg (by rw [ha2]; omega), ha2]
  have ht0 : (0 : Int) ≤ t := by omega
  refine ⟨by decide, ?_, ?_, ?_, ?_, ?_, ?_, ?_, ?_, ?_, ?_, ?_, ?_⟩
  · rw [show (3 : Nat) = 2 + 1 from rfl, runGen_cons 2 h1,
      show (2 : Nat) = 1 + 1 from rfl, runGen_cons 1 h2,
      show (1 : Nat) = 0 + 1 from rfl, runGen_cons 0 h3]
    rfl
  · rw [tsF_pack t 1 1 0 (by norm_num) (by norm_num) (by norm_num) (by norm_num)
      (by norm_num) (by norm_num),
      tsF_pack t 1 1 1 (by norm_num) (by norm_num) (by norm_num) (by norm_num)
      (by norm_num) (by norm_num)]
  · rw [tsF_pack t 1 1 1 (by norm_num) (by norm_num) (by norm_num) (by norm_num)
      (by norm_num) (by norm_num),
      tsF_pack t 1 1 2 (by norm_num) (by norm_num) (by norm_num) (by norm_num)
      (by norm_num) (by norm_num)]
  · rw [dcF_pack t 1 1 0 (by norm_num) (by norm_num) (by norm_num) (by norm_num)
      (by norm_num) (by norm_num)]
    rfl
  · rw [dcF_pack t 1 1 1 (by norm_num) (by norm_num) (by norm_num) (by norm_num)
      (by norm_num) (by norm_num)]
    rfl
  · rw [dcF_pack t 1 1 2 (by norm_num) (by norm_num) (by norm_num) (by norm_num)
      (by norm_num) (by norm_num)]
    rfl
  · rw [midF_pack t 1 1 0 (by norm_num) (by norm_num) (by norm_num) (by norm_num)
      (by norm_num) (by norm_num)]
    rfl
  · rw [midF_pack t 1 1 1 (by norm_num) (by norm_num) (by norm_num) (by norm_num)
      (by norm_num) (by norm_num)]
    rfl
  · rw [midF_pack t 1 1 2 (by norm_num) (by norm_num) (by norm_num) (by norm_num)
      (by norm_num) (by norm_num)]
    rfl
  · rw [seqF_pack t 1 1 0 (by norm_num) (by norm_num) (by norm_num) (by norm_num)
      (by norm_num) (by norm_num)]
    rfl
  · rw [seqF_pack t 1 1 1 (by norm_num) (by norm_num) (by norm_num) (by norm_num)
      (by norm_num) (by norm_num)]
    rfl
  · rw [seqF_pack t 1 1 2 (by norm_num) (by norm_num) (by norm_num) (by norm_num)
      (by norm_num) (by norm_num)]
    rfl

theorem three_calls_same_millisecond_witness :
    runGen ⟨1, 1, 0, 0⟩ [epoch + 1, epoch + 1, epoch + 1] 3 =
      [(pack 1 1 1 0, ⟨1, 1, 0, 1⟩), (pack 1 1 1 1, ⟨1, 1, 1, 1⟩),
       (pack 1 1 1 2, ⟨1, 1, 2, 1⟩)] ∧
    seqF (pack 1 1 1 0) = 0 ∧ seqF (pack 1 1 1 1) = 1 ∧ seqF (pack 1 1 1 2) = 2 := by
  have h := three_calls_same_millisecond_sequences 1 (by decide)
  exact ⟨h.2.1, h.2.2.2.2.2.2.2.2.2.2.1, h.2.2.2.2.2.2.2.2.2.2.2.1,
    h.2.2.2.2.2.2.2.2.2.2.2.2⟩

example : maxMachineID = 31 := by decide
example : maxDataCenterID = 31 := by decide
example : maxSequence = 4095 := by decide
example : pack 3 1 1 0 = 12718080 := by decide
example : pack 3 1 1 0 = 3 * 2 ^ 22 + 1 * 2 ^ 17 + 1 * 2 ^ 12 + 0 := by decide
example : generate ⟨1, 1, 0, 0⟩ [epoch + 5] =
    some ((pack 5 1 1 0, none), ⟨1, 1, 0, 5⟩, []) := by decide
example : generate ⟨1, 1, 0, 5⟩ [epoch + 3] =
    some ((pack 3 1 1 0, none), ⟨1, 1, 0, 3⟩, []) := by decide
example : generate ⟨1, 1, 4095, 10⟩ [epoch + 10, epoch + 7] =
    some ((pack 7 1 1 0, none), ⟨1, 1, 0, 7⟩, []) := by decide
example : runGen ⟨1, 1, 0, 0⟩ [epoch + 1, epoch + 1, epoch + 1] 3 =
    [(pack 1 1 1 0, ⟨1, 1, 0, 1⟩), (pack 1 1 1 1, ⟨1, 1, 1, 1⟩),
     (pack 1 1 1 2, ⟨1, 1, 2, 1⟩)] := by decide
